import Mathlib

set_option maxRecDepth 8000

/- Shallow embedding of the testcode2 repository (validation.py, util.py,
   _lock.py and the Test orchestration of __init__.py).

   Modelling conventions:
   * Python floats are modelled as rationals; NaN and non-numeric (string)
     values are modelled by the Val type below.  The float infinity produced
     by validate_relative is modelled by the RErr type.
   * Python string formatting is modelled structurally: each distinct format
     string in the source becomes one constructor carrying the interpolated
     values, and an empty message string is modelled by an empty option or
     an empty list, matching Python truthiness of strings.
   * compat_set / compat_all / compat_any / isnan resolve to the builtins
     set / all / any / math.isnan (compatibility.py). -/

/- ---------------------------------------------------------------------
   validation.py: class Status
   --------------------------------------------------------------------- -/

/-- Python max on two integers. -/
def imax (a b : Int) : Int := if a ≤ b then b else a

/-- Exact rational subtraction, written out by cross multiplication so that it
evaluates inside the kernel (the library subtraction on ℚ is irreducible). -/
def qsub (a b : ℚ) : ℚ := mkRat (a.num * b.den - b.num * a.den) (a.den * b.den)

/-- Exact rational division by cross multiplication; division by zero gives 0,
but every division in the embedded code is guarded by a zero test exactly as
in the source. -/
def qdiv (a b : ℚ) : ℚ :=
  if b.num < 0 then mkRat (-(a.num * b.den)) (a.den * b.num.natAbs)
  else mkRat (a.num * b.den) (a.den * b.num.natAbs)

/-- Python abs on an exact rational. -/
def qabs (q : ℚ) : ℚ := if q.num < 0 then Rat.neg q else q

/-- Embedding of validation.Status: an object storing an integer level, with
(unknown, skipped, passed, partial, failed) = (-2, -1, 0, 1, 2). -/
structure Status where
  status : Int
deriving DecidableEq

/-- Level constant set in Status.__init__. -/
def Status.unknownS : Status := ⟨-2⟩

/-- Level constant set in Status.__init__. -/
def Status.skippedS : Status := ⟨-1⟩

/-- Level constant set in Status.__init__. -/
def Status.passedS : Status := ⟨0⟩

/-- Level constant set in Status.__init__ (the partial-pass level). -/
def Status.warningS : Status := ⟨1⟩

/-- Level constant set in Status.__init__. -/
def Status.failedS : Status := ⟨2⟩

/-- Embedding of the bools branch of Status.__init__: all True gives passed,
some True gives the partial level, none True gives failed, and an empty
iterable (falsy in Python) leaves the default unknown level. -/
def Status.ofBools (bools : List Bool) : Status :=
  if bools.isEmpty then Status.unknownS
  else if bools.all id then Status.passedS
  else if bools.any id then Status.warningS
  else Status.failedS

/-- Embedding of Status.unknown. -/
def Status.unknown (s : Status) : Bool := s.status == -2

/-- Embedding of Status.skipped. -/
def Status.skipped (s : Status) : Bool := s.status == -1

/-- Embedding of Status.passed. -/
def Status.passed (s : Status) : Bool := s.status == 0

/-- Embedding of Status.warning. -/
def Status.warning (s : Status) : Bool := s.status == 1

/-- Embedding of Status.failed. -/
def Status.failed (s : Status) : Bool := s.status == 2

/-- Embedding of Status.__add__: return the maximum level. -/
def Status.add (a b : Status) : Status := ⟨imax a.status b.status⟩

/- ---------------------------------------------------------------------
   validation.py: class Tolerance
   --------------------------------------------------------------------- -/

/-- Embedding of the stored fields of validation.Tolerance.  none models a
Python None threshold. -/
structure Tolerance where
  absolute : Option ℚ
  relative : Option ℚ
  strict : Bool
deriving DecidableEq

/-- Python truthiness of an optional float threshold: None and 0.0 are falsy
(the source tests thresholds with `if self.absolute` and
`if not self.absolute`). -/
def otruthy : Option ℚ → Bool
  | none => false
  | some q => q != 0

/-- Embedding of Tolerance.__init__: raise TestCodeError when neither the
absolute nor the relative tolerance is truthy, else store the fields. -/
def Tolerance.init (absolute relative : Option ℚ) (strict : Bool) :
    Except Unit Tolerance :=
  if !otruthy absolute && !otruthy relative then Except.error ()
  else Except.ok ⟨absolute, relative, strict⟩

/-- Relative error value: a finite rational or the float infinity assigned by
validate_relative when the benchmark value is 0 and the difference is not. -/
inductive RErr where
  | fin : ℚ → RErr
  | inf : RErr
deriving DecidableEq

/-- Comparison err < threshold used by validate_relative; float infinity is
less than no finite threshold. -/
def RErr.ltQ : RErr → ℚ → Bool
  | .fin e, t => e < t
  | .inf, _ => false

/-- Structural model of the message strings produced by validate_absolute and
validate_relative. -/
inductive TolMsg where
  | absGreater (err tol : ℚ)
  | relGreater (err : RErr) (tol : ℚ)
  | noAbsSet
  | noRelSet
deriving DecidableEq

/-- Embedding of Tolerance.validate_absolute.  The second component models the
msg string; none models the empty string. -/
def Tolerance.validate_absolute (tol : Tolerance) (benchmark_val test_val : ℚ) :
    Status × Option TolMsg :=
  if otruthy tol.absolute then
    let a := tol.absolute.getD 0
    let diff := qsub test_val benchmark_val
    let err := qabs diff
    let pass := decide (err < a)
    (Status.ofBools [pass], if pass then none else some (.absGreater err a))
  else
    (Status.ofBools [true], some .noAbsSet)

/-- Embedding of Tolerance.validate_relative, with the special rules for a
zero benchmark value. -/
def Tolerance.validate_relative (tol : Tolerance) (benchmark_val test_val : ℚ) :
    Status × Option TolMsg :=
  if otruthy tol.relative then
    let r := tol.relative.getD 0
    let diff := qsub test_val benchmark_val
    let err : RErr :=
      if benchmark_val = 0 && diff = 0 then .fin 0
      else if benchmark_val = 0 then .inf
      else .fin (qabs (qdiv diff benchmark_val))
    let pass := err.ltQ r
    (Status.ofBools [pass], if pass then none else some (.relGreater err r))
  else
    (Status.ofBools [true], some .noRelSet)

/- ---------------------------------------------------------------------
   validation.py: Tolerance.validate
   --------------------------------------------------------------------- -/

/-- A data value handed to Tolerance.validate: a finite float, a float NaN, or
a non-numeric (string) value. -/
inductive Val where
  | nan : Val
  | num : ℚ → Val
  | str : String → Val
deriving DecidableEq

/-- Model of the err_stat string in Tolerance.validate: empty, Warning or
ERROR. -/
inductive ErrStat where
  | blank
  | warnTag
  | errTag
deriving DecidableEq

/-- Structural model of the message lines built by Tolerance.validate. -/
inductive VMsg where
  | withinTol
  | nanMsg
  | check (es : ErrStat) (m : TolMsg) (testv benchv : Val)
  | different (testv benchv : Val)
deriving DecidableEq

/-- The msg value returned by Tolerance.validate: the key argument together
with the accumulated message lines.  The joined Python string is empty exactly
when msgs is empty. -/
structure VReport where
  key : String
  msgs : List VMsg
deriving DecidableEq

/-- Embedding of Tolerance.validate.  The first argument after the tolerance
is test_val and the second is benchmark_val, exactly as in the source
signature.  The isnan checks, the non-strict either-check combination, the
strict Status addition and the TypeError fallback to equality for non-numeric
values are reproduced; string formatting is modelled structurally. -/
def Tolerance.validate (tol : Tolerance) (test_val benchmark_val : Val)
    (key : String) : Status × VReport :=
  let sm : Status × List VMsg :=
    match test_val, benchmark_val with
    | .nan, _ => (Status.ofBools [false], [VMsg.nanMsg])
    | .num _, .nan => (Status.ofBools [false], [VMsg.nanMsg])
    | .num tv, .num bv =>
      let va := tol.validate_absolute bv tv
      let vr := tol.validate_relative bv tv
      let st :=
        if otruthy tol.absolute && otruthy tol.relative && !tol.strict then
          Status.ofBools [vr.1.passed, va.1.passed]
        else
          vr.1.add va.1
      let es : ErrStat :=
        if st.warning then .warnTag
        else if st.failed then .errTag
        else .blank
      let m0 : List VMsg := []
      let m1 := if otruthy tol.absolute && va.2.isSome then
          m0 ++ [VMsg.check es (va.2.getD .noAbsSet) test_val benchmark_val]
        else m0
      let m2 := if otruthy tol.relative && vr.2.isSome then
          m1 ++ [VMsg.check es (vr.2.getD .noRelSet) test_val benchmark_val]
        else m1
      (st, m2)
    | .num _, .str _ =>
      (Status.ofBools [false], [VMsg.different test_val benchmark_val])
    | .str a, b =>
      if Val.str a = b then (Status.ofBools [true], [VMsg.withinTol])
      else (Status.ofBools [false], [VMsg.different test_val benchmark_val])
  (sm.1, ⟨key, sm.2⟩)

/- ---------------------------------------------------------------------
   validation.py: compare_data
   --------------------------------------------------------------------- -/

/-- A data dictionary: association list from field name to the tuple of
extracted values, in insertion order. -/
abbrev Data := List (String × List Val)

/-- Key set of a data dictionary (compat_set over the mapping). -/
def dataKeys (d : Data) : Finset String := (d.map Prod.fst).toFinset

/-- Python dict lookup benchmark[param]. -/
def dataGet (d : Data) (k : String) : List Val :=
  ((d.find? (fun kv => kv.1 = k)).map Prod.snd).getD []

/-- Python tolerances.get(param, default_tolerance). -/
def tolGet (tols : List (String × Tolerance)) (deflt : Tolerance) (k : String) :
    Tolerance :=
  ((tols.find? (fun kv => kv.1 = k)).map Prod.snd).getD deflt

/-- Structural model of the message strings accumulated by compare_data. -/
inductive CmpMsg where
  | differentSets
  | benchOnlyMsg (fields : Finset String)
  | testOnlyMsg (fields : Finset String)
  | valueMsg (r : VReport)
deriving DecidableEq

/-- The inner loop of compare_data over one shared parameter: zip the
benchmark and test value tuples and, for each pair, call
tol.validate(bench_value, test_value, param) exactly as the source does
(positionally, so bench_value is bound to the test_val parameter of validate
and test_value to benchmark_val), adding each per-value status onto the
accumulator and appending the message of every non-passing non-empty
verdict. -/
def compareSeq (tol : Tolerance) (param : String) (bvals tvals : List Val)
    (acc : Status × List CmpMsg) : Status × List CmpMsg :=
  (bvals.zip tvals).foldl
    (fun acc bt =>
      let kv := tol.validate bt.1 bt.2 param
      let st := acc.1.add kv.1
      let msgs :=
        if !kv.1.passed && !kv.2.msgs.isEmpty then
          acc.2 ++ [CmpMsg.valueMsg kv.2]
        else acc.2
      (st, msgs))
    acc

/-- Embedding of validation.compare_data.  Returns (comparable, status, msg).
Python iterates the shared parameters in unspecified set order; the embedding
iterates them in benchmark insertion order, which fixes the message order but
leaves the status unchanged because Status.add is commutative and
associative. -/
def compare_data (benchmark test : Data) (default_tolerance : Tolerance)
    (tolerances : List (String × Tolerance))
    (ignore_fields : List String) : Bool × Status × List CmpMsg :=
  let ignored_params := ignore_fields.toFinset
  let bench_params := dataKeys benchmark \ ignored_params
  let test_params := dataKeys test \ ignored_params
  let comparable := decide (bench_params = test_params)
  let st0 := Status.unknownS
  let r1 : Status × List CmpMsg :=
    if !comparable then
      let bench_only := bench_params \ test_params
      let test_only := test_params \ bench_params
      (Status.ofBools [false],
        [CmpMsg.differentSets]
          ++ (if bench_only.Nonempty then [CmpMsg.benchOnlyMsg bench_only] else [])
          ++ (if test_only.Nonempty then [CmpMsg.testOnlyMsg test_only] else []))
    else (st0, [])
  let sharedKeys :=
    ((benchmark.map Prod.fst).dedup).filter (fun k => k ∈ bench_params ∩ test_params)
  let r2 :=
    sharedKeys.foldl
      (fun acc param =>
        let tol := tolGet tolerances default_tolerance param
        compareSeq tol param (dataGet benchmark param) (dataGet test param) acc)
      r1
  (comparable, r2.1, r2.2)

/-- Relative error of a test value against a benchmark value exactly as the
specification words it: abs((test - benchmark) / benchmark), with 0 for a zero
benchmark and zero difference and infinity for a zero benchmark and a nonzero
difference. -/
def spec_relative_error (test_val benchmark_val : ℚ) : RErr :=
  if benchmark_val = 0 && qsub test_val benchmark_val = 0 then .fin 0
  else if benchmark_val = 0 then .inf
  else .fin (qabs (qdiv (qsub test_val benchmark_val) benchmark_val))

/- ---------------------------------------------------------------------
   util.py: try_floatify and extract_tagged_data
   --------------------------------------------------------------------- -/

/-- Numeric value of a list of decimal digit characters. -/
def digitsVal (ds : List Char) : Nat :=
  ds.foldl (fun a c => a * 10 + (c.toNat - 48)) 0

/-- Model of the Python float constructor on a whitespace-free token,
restricted to finite decimal literals with an optional sign, fractional part
and exponent; tokens outside this grammar (including the special inf and nan
spellings) are treated as unparseable. -/
def parseFloat (w : String) : Option ℚ :=
  let cs := w.toList
  let (sgn, cs1) : ℚ × List Char :=
    match cs with
    | '+' :: t => (1, t)
    | '-' :: t => (-1, t)
    | t => (1, t)
  let ip := cs1.takeWhile Char.isDigit
  let cs2 := cs1.dropWhile Char.isDigit
  let (fp, cs3) : List Char × List Char :=
    match cs2 with
    | '.' :: t => (t.takeWhile Char.isDigit, t.dropWhile Char.isDigit)
    | t => ([], t)
  if ip.isEmpty && fp.isEmpty then none
  else
    let mant : ℚ := mkRat (digitsVal ip * 10 ^ fp.length + digitsVal fp) (10 ^ fp.length)
    let mant := if sgn < 0 then Rat.neg mant else mant
    match cs3 with
    | [] => some mant
    | c :: t =>
      if c = 'e' || c = 'E' then
        let (esgn, t2) : Int × List Char :=
          match t with
          | '+' :: r => (1, r)
          | '-' :: r => (-1, r)
          | r => (1, r)
        let ed := t2.takeWhile Char.isDigit
        let r2 := t2.dropWhile Char.isDigit
        if ed.isEmpty || !r2.isEmpty then none
        else
          let e := digitsVal ed
          some (if 0 ≤ esgn then Rat.mul mant (mkRat (10 ^ e) 1)
                else Rat.mul mant (mkRat 1 (10 ^ e)))
      else none

/-- Embedding of util.try_floatify: convert the token to a float if possible,
else return the token itself. -/
def try_floatify (w : String) : Val :=
  match parseFloat w with
  | some q => .num q
  | none => .str w

/-- Literal character-list match of a pattern against the front of a list. -/
def charsStart : List Char → List Char → Bool
  | [], _ => true
  | _ :: _, [] => false
  | p :: ps, c :: cs => p == c && charsStart ps cs

/-- Match of the compiled pattern of spaces followed by the escaped data tag,
anchored at the start of the line. -/
def tagMatches (data_tag line : String) : Bool :=
  (List.range (line.toList.length + 1)).any fun k =>
    ((line.toList.take k).all (fun c => c == ' ')) &&
      charsStart data_tag.toList (line.toList.drop k)

/-- Accumulator pass behind pysplit: gather maximal nonempty runs of
non-whitespace characters. -/
def wordsAux : List Char → List Char → List String
  | [], acc => if acc.isEmpty then [] else [acc.reverse.asString]
  | c :: cs, acc =>
    if c.isWhitespace then
      if acc.isEmpty then wordsAux cs []
      else acc.reverse.asString :: wordsAux cs []
    else wordsAux cs (c :: acc)

/-- Python str.split with no argument: split on whitespace runs, dropping
empty tokens. -/
def pysplit (line : String) : List String := wordsAux line.toList []

/-- The loop of extract_tagged_data over words[1:]: accumulate tokens into the
key until the first one that floatifies, which becomes the value; when no
token floatifies the last token itself (a string) is left as the value, and
with no tokens at all the value variable stays unbound (modelled as none). -/
def scanWords : List String → List String × Option Val
  | [] => ([], none)
  | w :: ws =>
    match parseFloat w with
    | some q => ([], some (.num q))
    | none =>
      match scanWords ws with
      | (k, none) => (w :: k, some (.str w))
      | (k, v) => (w :: k, v)

/-- Errors extract_tagged_data can raise: the IndexError from indexing key[-1]
on an empty key, the RunError for a missing file, and the NameError for an
unbound value variable (never actually reachable). -/
inductive ExtractErr where
  | indexError
  | runError
  | nameError
deriving DecidableEq

/-- Embedding of the key construction in extract_tagged_data: pop the last
token when it is the literal = or :, join with underscores, strip a trailing
= or : character, and default an empty key to data.  Both indexings of key[-1]
raise IndexError on an empty key, which makes the final default dead code. -/
def buildKey (keyToks : List String) : Except ExtractErr String :=
  if keyToks.isEmpty then .error .indexError
  else
    let toks :=
      if keyToks.getLastD "" = "=" || keyToks.getLastD "" = ":" then
        keyToks.dropLast
      else keyToks
    let key := String.intercalate "_" toks
    if key.toList.isEmpty then .error .indexError
    else
      let key :=
        if key.toList.getLastD ' ' = '=' || key.toList.getLastD ' ' = ':' then
          key.toList.dropLast.asString
        else key
      let key := if key.toList.isEmpty then "data" else key
      .ok key

/-- A data dictionary under construction: insertion-ordered association list;
a repeated key appends to its existing entry. -/
def dataAppend (data : Data) (key : String) (v : Val) : Data :=
  if (data.find? (fun kv => kv.1 = key)).isSome then
    data.map (fun kv => if kv.1 = key then (kv.1, kv.2 ++ [v]) else kv)
  else data ++ [(key, [v])]

/-- Embedding of the body of the line loop of extract_tagged_data. -/
def extract_line (data_tag line : String) (data : Data) : Except ExtractErr Data :=
  if tagMatches data_tag line then
    let words := pysplit line
    let (keyToks, val) := scanWords (words.drop 1)
    match buildKey keyToks with
    | .error e => .error e
    | .ok key =>
      match val with
      | some v => .ok (dataAppend data key v)
      | none => .error .nameError
  else .ok data

/-- Embedding of util.extract_tagged_data on the list of lines of an existing
file (a missing file raises RunError before any line is read). -/
def extract_tagged_data (data_tag : String) (lines : List String) :
    Except ExtractErr Data :=
  lines.foldlM (fun data line => extract_line data_tag line data) []

/- ---------------------------------------------------------------------
   _lock.py: Lock.with_lock and Lock.in_dir
   --------------------------------------------------------------------- -/

/-- Process state visible to the directory lock helpers: the process-global
working directory and whether the lock is held. -/
structure SysState where
  cwd : String
  locked : Bool
deriving DecidableEq

/-- Embedding of Lock.with_lock: acquire the lock, run the function, and
release the lock in a finally clause on both the normal and the raising
path. -/
def with_lock {α : Type} (func : SysState → Except Int α × SysState)
    (s : SysState) : Except Int α × SysState :=
  let s1 : SysState := { s with locked := true }
  let (r, s2) := func s1
  (r, { s2 with locked := false })

/-- Embedding of the function decorated by Lock.in_dir: under the lock, record
the current directory, enter ddir, run the function, and change back only
after a normal return; a raised exception propagates without the change
back. -/
def in_dir {α : Type} (ddir : String)
    (func : SysState → Except Int α × SysState) :
    SysState → Except Int α × SysState :=
  with_lock (fun s =>
    let cwd := s.cwd
    let s1 : SysState := { s with cwd := ddir }
    match func s1 with
    | (.ok v, s2) => (.ok v, { s2 with cwd := cwd })
    | (.error e, s2) => (.error e, s2))

/- ---------------------------------------------------------------------
   testcode2/__init__.py: Test._verify_job, Test._update_status and
   Test.run_test
   --------------------------------------------------------------------- -/

/-- Dynamic Python value for the tuple returned by compare_data, needed to
model tuple unpacking in Test._verify_job. -/
inductive PyVal where
  | pyBool (b : Bool)
  | pyStatus (s : Status)
  | pyMsgList (m : List CmpMsg)
deriving DecidableEq

/-- Python runtime errors surfaced by the embedded _verify_job body. -/
inductive PyErr where
  | valueError
  | typeError
deriving DecidableEq

/-- The value of the Python expression validation.compare_data(...) as the
runtime tuple it returns: (comparable, status, msg). -/
def compare_data_pytuple (benchmark test : Data) (default_tolerance : Tolerance)
    (tolerances : List (String × Tolerance)) (ignore_fields : List String) :
    List PyVal :=
  let r := compare_data benchmark test default_tolerance tolerances ignore_fields
  [.pyBool r.1, .pyStatus r.2.1, .pyMsgList r.2.2]

/-- Python unpacking of a tuple into exactly two targets: any other arity
raises ValueError. -/
def unpack2 (t : List PyVal) : Except PyErr (PyVal × PyVal) :=
  match t with
  | [a, b] => .ok (a, b)
  | _ => .error .valueError

/-- Embedding of the comparison step of Test._verify_job without external
verification: the statement (status, msg) = validation.compare_data(bench_out,
test_out, self.default_tolerance, self.tolerances).  The source passes no
ignore_fields argument, so it defaults to None, and unpacks the returned
3-tuple into two targets; everything after this statement, including the
_update_status call, runs only if the unpacking succeeds. -/
def verify_job_compare (bench_out test_out : Data) (default_tolerance : Tolerance)
    (tolerances : List (String × Tolerance)) : Except PyErr (PyVal × PyVal) :=
  unpack2 (compare_data_pytuple bench_out test_out default_tolerance tolerances [])

/-- One (input, argument) pair of a Test. -/
abbrev Case := String × String

/-- The Status Record self.status of a Test: for each (input, argument) pair
the mutable pair [attempted, passed], in configuration order. -/
abbrev StatusDict := List (Case × (Bool × Bool))

/-- Embedding of Test.__init__ building self.status: every case starts as
[False, False]. -/
def initStatus (inputs_args : List Case) : StatusDict :=
  inputs_args.map (fun c => (c, (false, false)))

/-- Embedding of Test._update_status: attempted is always set, passed only on
a passing result. -/
def update_status (st : StatusDict) (passed : Bool) (inp_arg : Case) :
    StatusDict :=
  st.map (fun kv =>
    if kv.1 = inp_arg then (kv.1, (true, if passed then true else kv.2.2))
    else kv)

/-- Status Record lookup for one case. -/
def statusOf (st : StatusDict) (c : Case) : Option (Bool × Bool) :=
  (st.find? (fun kv => kv.1 = c)).map Prod.snd

/-- Environment of one local Test.run_test call: the configured cases and the
outcomes of the effectful per-case steps, abstracted as oracles.  startOk
covers self.start_job plus job.wait, moveOutOk covers
self.move_output_to_test_output, and verifyOutcome covers self.verify_job,
whose normal return updates the Status Record with its passed verdict and
whose RunError models an execution error (missing extractable file and the
like). -/
structure RunTestEnv where
  inputs_args : List Case
  inputExists : String → Bool
  moveOldOk : Bool
  startOk : Nat → Bool
  hasOutput : Bool
  moveOutOk : Nat → Bool
  verifyOutcome : Case → Except Unit Bool

/-- The first case whose declared input file is missing, raising RunError in
the command-construction loop of Test.run_test. -/
def firstMissingInput (env : RunTestEnv) : Option Case :=
  env.inputs_args.find? (fun c => c.1 ≠ "" && !env.inputExists c.1)

/-- The local job loop of Test.run_test over the enumerated cases, carrying
the current value of the (test_input, test_arg) variables, which the except
clause uses for _update_status.  The variables are reassigned from
inputs_args[ind] only after start_job returns; a RunError from any step jumps
to the except clause, which marks the current case attempted and not passed
and ends the whole loop.  The returned list records the cases on which
verify_job was invoked. -/
def run_test_loop (env : RunTestEnv) :
    List (Nat × Case) → Case → StatusDict → List Case → StatusDict × List Case
  | [], _, st, log => (st, log)
  | (ind, cNew) :: rest, cur, st, log =>
    if !env.startOk ind then (update_status st false cur, log)
    else
      let cur := cNew
      if env.hasOutput && !env.moveOutOk ind then (update_status st false cur, log)
      else
        match env.verifyOutcome cur with
        | .error _ => (update_status st false cur, log)
        | .ok passed =>
          run_test_loop env rest cur (update_status st passed cur) (log ++ [cur])

/-- Embedding of Test.run_test without a cluster queue: check the inputs
exist, move old output files aside, then run and verify each case in
configured order; exceptions.RunError from any step is caught once, outside
the loop, so the except clause marks only the case currently held by the
(test_input, test_arg) variables and the remaining cases are not run. -/
def run_test (env : RunTestEnv) (st : StatusDict) : StatusDict × List Case :=
  match firstMissingInput env with
  | some c => (update_status st false c, [])
  | none =>
    let cur := env.inputs_args.getLastD ("", "")
    if !env.moveOldOk then (update_status st false cur, [])
    else run_test_loop env env.inputs_args.enum cur st []

/- ---------------------------------------------------------------------
   Helper lemmas
   --------------------------------------------------------------------- -/

theorem ofBools_single (p : Bool) :
    Status.ofBools [p] = if p then Status.passedS else Status.failedS := by
  cases p <;> rfl

theorem status_ofBools_le (l : List Bool) : (Status.ofBools l).status ≤ 2 := by
  unfold Status.ofBools
  split_ifs <;> decide

theorem imax_of_le_two {b : Int} (h : b ≤ 2) : imax 2 b = 2 := by
  unfold imax; split <;> omega

theorem status_add_le {a b : Status} (ha : a.status ≤ 2) (hb : b.status ≤ 2) :
    (a.add b).status ≤ 2 := by
  show imax a.status b.status ≤ 2
  unfold imax; split <;> omega

theorem validate_status_le (tol : Tolerance) (t b : Val) (k : String) :
    (tol.validate t b k).1.status ≤ 2 := by
  unfold Tolerance.validate
  cases t <;> cases b <;> simp only []
  case num.num tv bv =>
    split
    · exact status_ofBools_le _
    · have ha := status_ofBools_le [decide
        (qabs (qsub tv bv) < tol.absolute.getD 0)]
      have h1 : ((tol.validate_relative bv tv).1).status ≤ 2 := by
        unfold Tolerance.validate_relative
        split
        · exact status_ofBools_le _
        · exact status_ofBools_le _
      have h2 : ((tol.validate_absolute bv tv).1).status ≤ 2 := by
        unfold Tolerance.validate_absolute
        split
        · exact status_ofBools_le _
        · exact status_ofBools_le _
      exact status_add_le h1 h2
  all_goals first
    | exact status_ofBools_le _
    | (split <;> exact status_ofBools_le _)

theorem compareSeq_failed (tol : Tolerance) (param : String)
    (l : List (Val × Val)) (acc : Status × List CmpMsg)
    (h : acc.1 = Status.failedS) :
    ((l.foldl (fun acc bt =>
      let kv := tol.validate bt.1 bt.2 param
      let st := acc.1.add kv.1
      let msgs :=
        if !kv.1.passed && !kv.2.msgs.isEmpty then
          acc.2 ++ [CmpMsg.valueMsg kv.2]
        else acc.2
      (st, msgs)) acc)).1 = Status.failedS := by
  induction l generalizing acc with
  | nil => exact h
  | cons bt l ih =>
    simp only [List.foldl_cons]
    apply ih
    simp only [h, Status.add, Status.failedS, Status.mk.injEq]
    exact imax_of_le_two (validate_status_le _ _ _ _)

theorem compareSeq_msgs_mono (tol : Tolerance) (param : String)
    (l : List (Val × Val)) (acc : Status × List CmpMsg) :
    ∃ extra, ((l.foldl (fun acc bt =>
      let kv := tol.validate bt.1 bt.2 param
      let st := acc.1.add kv.1
      let msgs :=
        if !kv.1.passed && !kv.2.msgs.isEmpty then
          acc.2 ++ [CmpMsg.valueMsg kv.2]
        else acc.2
      (st, msgs)) acc)).2 = acc.2 ++ extra := by
  induction l generalizing acc with
  | nil => exact ⟨[], (List.append_nil _).symm⟩
  | cons bt l ih =>
    simp only [List.foldl_cons]
    obtain ⟨e1, he1⟩ := ih _
    rw [he1]
    by_cases hc : (!(tol.validate bt.1 bt.2 param).1.passed
        && !(tol.validate bt.1 bt.2 param).2.msgs.isEmpty) = true
    · exact ⟨[CmpMsg.valueMsg (tol.validate bt.1 bt.2 param).2] ++ e1,
        by simp [hc]⟩
    · exact ⟨e1, by simp [hc]⟩

theorem compareSeq_failed2 (tol : Tolerance) (param : String)
    (bvals tvals : List Val) (acc : Status × List CmpMsg)
    (h : acc.1 = Status.failedS) :
    (compareSeq tol param bvals tvals acc).1 = Status.failedS :=
  compareSeq_failed tol param (bvals.zip tvals) acc h

theorem compareSeq_msgs_mono2 (tol : Tolerance) (param : String)
    (bvals tvals : List Val) (acc : Status × List CmpMsg) :
    ∃ extra, (compareSeq tol param bvals tvals acc).2 = acc.2 ++ extra :=
  compareSeq_msgs_mono tol param (bvals.zip tvals) acc

theorem cdFold_failed (benchmark test : Data) (dt : Tolerance)
    (tols : List (String × Tolerance)) (keys : List String)
    (acc : Status × List CmpMsg) (h : acc.1 = Status.failedS) :
    (keys.foldl (fun a param =>
        compareSeq (tolGet tols dt param) param (dataGet benchmark param)
          (dataGet test param) a) acc).1 = Status.failedS := by
  induction keys generalizing acc with
  | nil => exact h
  | cons k ks ih =>
    simp only [List.foldl_cons]
    exact ih _ (compareSeq_failed2 _ _ _ _ _ h)

theorem cdFold_msgs_mono (benchmark test : Data) (dt : Tolerance)
    (tols : List (String × Tolerance)) (keys : List String)
    (acc : Status × List CmpMsg) :
    ∃ extra, (keys.foldl (fun a param =>
        compareSeq (tolGet tols dt param) param (dataGet benchmark param)
          (dataGet test param) a) acc).2 = acc.2 ++ extra := by
  induction keys generalizing acc with
  | nil => exact ⟨[], (List.append_nil _).symm⟩
  | cons k ks ih =>
    simp only [List.foldl_cons]
    obtain ⟨e1, he1⟩ := compareSeq_msgs_mono2 (tolGet tols dt k) k
      (dataGet benchmark k) (dataGet test k) acc
    obtain ⟨e2, he2⟩ := ih (compareSeq (tolGet tols dt k) k
      (dataGet benchmark k) (dataGet test k) acc)
    exact ⟨e1 ++ e2, by rw [he2, he1, List.append_assoc]⟩

/- ---------------------------------------------------------------------
   Claim theorems
   --------------------------------------------------------------------- -/

/-- C4: the Status combine operation Status.add returns the status with the
larger ordinal (max), and is therefore commutative, associative and
idempotent, with combine(passed, failed) = failed and
combine(passed, partial) = partial. -/
theorem C4_status_combine_is_max (a b c : Status) :
    a.add b = ⟨imax a.status b.status⟩
    ∧ a.add b = b.add a
    ∧ (a.add b).add c = a.add (b.add c)
    ∧ a.add a = a
    ∧ Status.passedS.add Status.failedS = Status.failedS
    ∧ Status.passedS.add Status.warningS = Status.warningS := by
  obtain ⟨x⟩ := a; obtain ⟨y⟩ := b; obtain ⟨z⟩ := c
  refine ⟨rfl, ?_, ?_, ?_, by decide, by decide⟩
  · simp only [Status.add, imax, Status.mk.injEq]
    split_ifs <;> omega
  · simp only [Status.add, imax, Status.mk.injEq]
    split_ifs <;> omega
  · simp only [Status.add, imax, Status.mk.injEq]
    split_ifs <;> omega

/-- C5 counterexample: combining skipped with unknown gives skipped, although
unknown is not skipped, because max(-1, -2) = -1.  This falsifies the claim
that combine(skipped, a) is never skipped unless a is itself skipped. -/
theorem C5_counterexample :
    (Status.skippedS.add Status.unknownS).skipped = true
    ∧ Status.unknownS.skipped = false := by decide

/-- C5 (amended): for every status among the five named levels,
combine(skipped, a) is skipped exactly when a is skipped or a is unknown. -/
theorem C5_skipped_combine (a : Status)
    (h : a.status = -2 ∨ a.status = -1 ∨ a.status = 0 ∨ a.status = 1
      ∨ a.status = 2) :
    (Status.skippedS.add a).skipped = (a.skipped || a.unknown) := by
  obtain ⟨x⟩ := a
  simp only [] at h
  rcases h with h | h | h | h | h <;>
    (have hx : x = _ := h; subst hx; decide)

/-- C5 witness: the amended statement instantiated at the passed status. -/
theorem C5_skipped_combine_witness :
    (Status.skippedS.add Status.passedS).skipped
      = (Status.passedS.skipped || Status.passedS.unknown) :=
  C5_skipped_combine Status.passedS (by decide)

/-- C10: Tolerance construction rejects a pair of unset thresholds, where a
threshold equal to zero counts as unset (Python falsiness), and every
successfully constructed Tolerance has a nonzero absolute or relative
threshold. -/
theorem C10_tolerance_init_zero_unset :
    (∀ s, Tolerance.init none none s = Except.error ())
    ∧ (∀ s, Tolerance.init (some 0) none s = Except.error ())
    ∧ (∀ s, Tolerance.init none (some 0) s = Except.error ())
    ∧ (∀ a r s t, Tolerance.init a r s = Except.ok t →
        (otruthy t.absolute || otruthy t.relative) = true) := by
  refine ⟨fun _ => rfl, fun _ => rfl, fun _ => rfl, ?_⟩
  intro a r s t h
  unfold Tolerance.init at h
  split at h
  · exact absurd h (by simp)
  · next hc =>
    injection h with h2
    subst h2
    cases ha : otruthy a <;> cases hr : otruthy r <;> simp_all

/-- C10 witness: a tolerance successfully constructed from an absolute
threshold of 1 has a truthy threshold. -/
theorem C10_tolerance_init_witness :
    (otruthy ((⟨some 1, none, true⟩ : Tolerance)).absolute
      || otruthy ((⟨some 1, none, true⟩ : Tolerance)).relative) = true :=
  C10_tolerance_init_zero_unset.2.2.2 (some 1) none true ⟨some 1, none, true⟩
    rfl

/-- C1: evaluation of the code at the failing inputs.  compare_data hands
(bench_value, test_value) positionally to validate(test_val, benchmark_val),
so for benchmark 0 and test 1e-5 under a pure relative tolerance of 1e-6 the
computed relative error is the finite abs((0 - 1e-5) / 1e-5) = 1 rather than
the infinity required by the claimed formula abs((test - benchmark) /
benchmark); and for benchmark 2, test 1 under relative tolerance 3/4 the code
fails the pair although the claimed relative error 1/2 is below the
threshold. -/
theorem C1_compare_data_swaps_validate_arguments :
    compare_data [("a", [.num 0])] [("a", [.num (mkRat 1 100000)])]
        ⟨none, some (mkRat 1 1000000), true⟩ [] []
      = (true, Status.failedS,
         [CmpMsg.valueMsg ⟨"a",
            [VMsg.check .errTag (.relGreater (.fin 1) (mkRat 1 1000000))
              (.num 0) (.num (mkRat 1 100000))]⟩])
    ∧ spec_relative_error (mkRat 1 100000) 0 = RErr.inf
    ∧ RErr.fin 1 ≠ RErr.inf
    ∧ (compare_data [("b", [.num 2])] [("b", [.num 1])]
        ⟨none, some (mkRat 3 4), true⟩ [] []).2.1.failed = true
    ∧ RErr.ltQ (spec_relative_error 1 2) (mkRat 3 4) = true := by
  refine ⟨by decide, by decide, by decide, by decide, by decide⟩

/-- C3: the statement (status, msg) = validation.compare_data(...) in
Test._verify_job unpacks the 3-tuple (comparable, status, msg) returned by
compare_data into two targets, so it raises ValueError on every input and the
subsequent _update_status call is never reached. -/
theorem C3_verify_job_unpacking_raises (bench_out test_out : Data)
    (default_tolerance : Tolerance) (tolerances : List (String × Tolerance)) :
    verify_job_compare bench_out test_out default_tolerance tolerances
      = Except.error PyErr.valueError := rfl

/-- C8 counterexample: a function raising inside in_dir leaves the working
directory at the target directory instead of restoring the original one,
because the chdir back happens only on the normal return path. -/
theorem C8_counterexample :
    ((in_dir "/tmp" (fun s => ((Except.error 0 : Except Int Unit), s))
        ⟨"/home", false⟩).2).cwd ≠ "/home" := by decide

/-- C8 (amended): the function produced by Lock.in_dir restores the original
working directory before releasing the lock when the wrapped function returns
normally, and releases the lock on the raising path as well, but on that path
the working directory is left wherever the wrapped function put it. -/
theorem C8_in_dir_paths {α : Type} (ddir : String)
    (func : SysState → Except Int α × SysState) (s : SysState) :
    (∀ v s2, func ⟨ddir, true⟩ = (Except.ok v, s2) →
        in_dir ddir func s = (Except.ok v, ⟨s.cwd, false⟩))
    ∧ (∀ e s2, func ⟨ddir, true⟩ = (Except.error e, s2) →
        in_dir ddir func s = (Except.error e, ⟨s2.cwd, false⟩)) := by
  constructor <;> intro x s2 h <;> simp [in_dir, with_lock, h]

/-- C8 witness: the amended statement instantiated at a function that returns
normally without moving. -/
theorem C8_in_dir_paths_witness :
    in_dir "/d" (fun s => ((Except.ok 5 : Except Int Int), s)) ⟨"/w", false⟩
      = (Except.ok 5, ⟨"/w", false⟩) :=
  (C8_in_dir_paths "/d" (fun s => ((Except.ok 5 : Except Int Int), s))
    ⟨"/w", false⟩).1 5 ⟨"/d", true⟩ rfl

/-- C9: evaluation of extract_tagged_data.  The Energy example extracts key
Energy with value -1.234 and a repeated key accumulates its values in file
order, but a matching line whose first token after the tag is already numeric
(so that no tokens precede the value) raises IndexError at the key[-1] check,
instead of producing the key "data" promised by the dead default below it. -/
theorem C9_extract_tagged_data_eval :
    extract_tagged_data "DVAL" ["DVAL  Energy:  -1.234  a.u."]
      = Except.ok [("Energy", [Val.num (mkRat (-1234) 1000)])]
    ∧ extract_tagged_data "T" ["T E 1.0", "skip", "T E 2.0"]
      = Except.ok [("E", [Val.num 1, Val.num 2])]
    ∧ extract_tagged_data "DVAL" ["DVAL 1.234"] = Except.error .indexError := by
  exact ⟨by rfl, by rfl, by rfl⟩

theorem validate_absolute_shape (tol : Tolerance) (bv tv : ℚ) :
    ∃ p, (tol.validate_absolute bv tv).1 = Status.ofBools [p] := by
  unfold Tolerance.validate_absolute
  split
  · exact ⟨_, rfl⟩
  · exact ⟨true, rfl⟩

theorem validate_relative_shape (tol : Tolerance) (bv tv : ℚ) :
    ∃ p, (tol.validate_relative bv tv).1 = Status.ofBools [p] := by
  unfold Tolerance.validate_relative
  split
  · exact ⟨_, rfl⟩
  · exact ⟨true, rfl⟩

theorem validate_num_fst (tol : Tolerance) (tv bv : ℚ) (key : String) :
    (tol.validate (Val.num tv) (Val.num bv) key).1 =
      if otruthy tol.absolute && otruthy tol.relative && !tol.strict then
        Status.ofBools [(tol.validate_relative bv tv).1.passed,
                        (tol.validate_absolute bv tv).1.passed]
      else (tol.validate_relative bv tv).1.add (tol.validate_absolute bv tv).1 :=
  rfl

/-- C2 counterexample: with absolute 1e-10 and relative 1e-3 both set, strict
false, test 1.0001 and benchmark 1, the relative check passes, so at least one
configured check passes, yet Tolerance.validate returns the partial (warning)
status, whose passed() is false.  This falsifies the claim that one passing
check yields a Status for which passed() is true. -/
theorem C2_counterexample :
    ((⟨some (mkRat 1 10000000000), some (mkRat 1 1000), false⟩ :
        Tolerance).validate_relative 1 (mkRat 10001 10000)).1.passed = true
    ∧ ((⟨some (mkRat 1 10000000000), some (mkRat 1 1000), false⟩ :
        Tolerance).validate (Val.num (mkRat 10001 10000)) (Val.num 1)
          "").1.passed = false
    ∧ ((⟨some (mkRat 1 10000000000), some (mkRat 1 1000), false⟩ :
        Tolerance).validate (Val.num (mkRat 10001 10000)) (Val.num 1)
          "").1.warning = true := by decide

/-- C2 (amended): for numeric values under a Tolerance with both thresholds
set and nonzero, with strict false the overall verdict of Tolerance.validate
is never failed when at least one configured check passes: it is passed when
both checks pass and warning (partial) when exactly one does; with strict
true, one failing check makes the overall verdict failed. -/
theorem C2_validate_combination (a r tv bv : ℚ) (strict : Bool) (key : String)
    (ha : a ≠ 0) (hr : r ≠ 0) :
    (strict = false →
      ((((⟨some a, some r, strict⟩ : Tolerance).validate_relative bv tv).1.passed
          || (((⟨some a, some r, strict⟩ : Tolerance)).validate_absolute bv tv).1.passed) = true →
        ((⟨some a, some r, strict⟩ : Tolerance).validate (Val.num tv) (Val.num bv) key).1.failed = false)
      ∧ ((((⟨some a, some r, strict⟩ : Tolerance).validate_relative bv tv).1.passed
          && (((⟨some a, some r, strict⟩ : Tolerance)).validate_absolute bv tv).1.passed) = true →
        ((⟨some a, some r, strict⟩ : Tolerance).validate (Val.num tv) (Val.num bv) key).1.passed = true)
      ∧ ((((⟨some a, some r, strict⟩ : Tolerance).validate_relative bv tv).1.passed
          ^^ (((⟨some a, some r, strict⟩ : Tolerance)).validate_absolute bv tv).1.passed) = true →
        ((⟨some a, some r, strict⟩ : Tolerance).validate (Val.num tv) (Val.num bv) key).1.warning = true))
    ∧ (strict = true →
      ((((⟨some a, some r, strict⟩ : Tolerance).validate_relative bv tv).1.passed
          && (((⟨some a, some r, strict⟩ : Tolerance)).validate_absolute bv tv).1.passed) = false →
        ((⟨some a, some r, strict⟩ : Tolerance).validate (Val.num tv) (Val.num bv) key).1.failed = true)) := by
  have hA : otruthy (some a) = true := by simp [otruthy, ha]
  have hR : otruthy (some r) = true := by simp [otruthy, hr]
  constructor
  · rintro rfl
    obtain ⟨pa, hpa⟩ := validate_absolute_shape ⟨some a, some r, false⟩ bv tv
    obtain ⟨pr, hpr⟩ := validate_relative_shape ⟨some a, some r, false⟩ bv tv
    rw [validate_num_fst]
    simp only [hpa, hpr, hA, hR, Bool.not_false, Bool.and_true, Bool.and_self,
      if_true]
    cases pa <;> cases pr <;> exact ⟨by decide, by decide, by decide⟩
  · rintro rfl
    obtain ⟨pa, hpa⟩ := validate_absolute_shape ⟨some a, some r, true⟩ bv tv
    obtain ⟨pr, hpr⟩ := validate_relative_shape ⟨some a, some r, true⟩ bv tv
    rw [validate_num_fst]
    simp only [hpa, hpr, Bool.not_true, Bool.and_false, if_false]
    cases pa <;> cases pr <;> decide

/-- C2 witness: the amended statement instantiated at absolute 1e-10, relative
1e-3, strict false, test 1.0001 and benchmark 1, where the relative check
passes, giving an overall verdict that is not failed. -/
theorem C2_validate_combination_witness :
    ((⟨some (mkRat 1 10000000000), some (mkRat 1 1000), false⟩ :
        Tolerance).validate (Val.num (mkRat 10001 10000)) (Val.num 1)
          "").1.failed = false :=
  ((C2_validate_combination (mkRat 1 10000000000) (mkRat 1 1000)
      (mkRat 10001 10000) 1 false "" (by decide) (by decide)).1 rfl).1
    (by decide)

/-- C6: when the benchmark and test key sets differ after removing ignored
fields, compare_data reports not comparable with a failed status, and its
message list contains the different-sets line together with the listing of the
benchmark-only fields and of the test-only fields whenever those sets are
nonempty. -/
theorem C6_incomparable_fails (benchmark test : Data) (dt : Tolerance)
    (tols : List (String × Tolerance)) (ign : List String)
    (h : dataKeys benchmark \ ign.toFinset ≠ dataKeys test \ ign.toFinset) :
    (compare_data benchmark test dt tols ign).1 = false
    ∧ (compare_data benchmark test dt tols ign).2.1 = Status.failedS
    ∧ CmpMsg.differentSets ∈ (compare_data benchmark test dt tols ign).2.2
    ∧ (((dataKeys benchmark \ ign.toFinset) \ (dataKeys test \ ign.toFinset)).Nonempty →
        CmpMsg.benchOnlyMsg
            ((dataKeys benchmark \ ign.toFinset) \ (dataKeys test \ ign.toFinset))
          ∈ (compare_data benchmark test dt tols ign).2.2)
    ∧ (((dataKeys test \ ign.toFinset) \ (dataKeys benchmark \ ign.toFinset)).Nonempty →
        CmpMsg.testOnlyMsg
            ((dataKeys test \ ign.toFinset) \ (dataKeys benchmark \ ign.toFinset))
          ∈ (compare_data benchmark test dt tols ign).2.2) := by
  have hcomp : decide (dataKeys benchmark \ ign.toFinset
      = dataKeys test \ ign.toFinset) = false := decide_eq_false h
  have hexp : compare_data benchmark test dt tols ign
      = (false,
         (((benchmark.map Prod.fst).dedup.filter
             (fun k => k ∈ (dataKeys benchmark \ ign.toFinset)
                ∩ (dataKeys test \ ign.toFinset))).foldl
           (fun a param => compareSeq (tolGet tols dt param) param
             (dataGet benchmark param) (dataGet test param) a)
           (Status.ofBools [false],
            [CmpMsg.differentSets]
              ++ (if ((dataKeys benchmark \ ign.toFinset)
                    \ (dataKeys test \ ign.toFinset)).Nonempty then
                   [CmpMsg.benchOnlyMsg ((dataKeys benchmark \ ign.toFinset)
                      \ (dataKeys test \ ign.toFinset))] else [])
              ++ (if ((dataKeys test \ ign.toFinset)
                    \ (dataKeys benchmark \ ign.toFinset)).Nonempty then
                   [CmpMsg.testOnlyMsg ((dataKeys test \ ign.toFinset)
                      \ (dataKeys benchmark \ ign.toFinset))] else []))).1,
         (((benchmark.map Prod.fst).dedup.filter
             (fun k => k ∈ (dataKeys benchmark \ ign.toFinset)
                ∩ (dataKeys test \ ign.toFinset))).foldl
           (fun a param => compareSeq (tolGet tols dt param) param
             (dataGet benchmark param) (dataGet test param) a)
           (Status.ofBools [false],
            [CmpMsg.differentSets]
              ++ (if ((dataKeys benchmark \ ign.toFinset)
                    \ (dataKeys test \ ign.toFinset)).Nonempty then
                   [CmpMsg.benchOnlyMsg ((dataKeys benchmark \ ign.toFinset)
                      \ (dataKeys test \ ign.toFinset))] else [])
              ++ (if ((dataKeys test \ ign.toFinset)
                    \ (dataKeys benchmark \ ign.toFinset)).Nonempty then
                   [CmpMsg.testOnlyMsg ((dataKeys test \ ign.toFinset)
                      \ (dataKeys benchmark \ ign.toFinset))] else []))).2) := by
    simp only [compare_data, hcomp, Bool.not_false, if_true]
  rw [hexp]
  obtain ⟨extra, hextra⟩ := cdFold_msgs_mono benchmark test dt tols
    ((benchmark.map Prod.fst).dedup.filter
      (fun k => k ∈ (dataKeys benchmark \ ign.toFinset)
        ∩ (dataKeys test \ ign.toFinset)))
    (Status.ofBools [false],
      [CmpMsg.differentSets]
        ++ (if ((dataKeys benchmark \ ign.toFinset)
              \ (dataKeys test \ ign.toFinset)).Nonempty then
             [CmpMsg.benchOnlyMsg ((dataKeys benchmark \ ign.toFinset)
                \ (dataKeys test \ ign.toFinset))] else [])
        ++ (if ((dataKeys test \ ign.toFinset)
              \ (dataKeys benchmark \ ign.toFinset)).Nonempty then
             [CmpMsg.testOnlyMsg ((dataKeys test \ ign.toFinset)
                \ (dataKeys benchmark \ ign.toFinset))] else []))
  refine ⟨rfl, cdFold_failed _ _ _ _ _ _ rfl, ?_, ?_, ?_⟩
  · rw [hextra]; simp
  · intro hne
    rw [hextra]
    simp only [if_pos hne, List.append_assoc, List.mem_append, List.mem_cons,
      List.mem_singleton]
    simp
  · intro hne
    rw [hextra]
    simp only [if_pos hne, List.append_assoc, List.mem_append, List.mem_cons,
      List.mem_singleton]
    simp

/-- C6 witness: benchmark keys energy and time against test key energy give a
failed result whose message lists time as only in the benchmark. -/
theorem C6_incomparable_fails_witness :
    (dataKeys [("energy", [Val.num 1]), ("time", [Val.num 2])]
        \ ([] : List String).toFinset
      ≠ dataKeys [("energy", [Val.num 1])] \ ([] : List String).toFinset)
    ∧ (compare_data [("energy", [Val.num 1]), ("time", [Val.num 2])]
        [("energy", [Val.num 1])] ⟨some 1, none, true⟩ [] []).2.1
        = Status.failedS
    ∧ CmpMsg.benchOnlyMsg {"time"}
        ∈ (compare_data [("energy", [Val.num 1]), ("time", [Val.num 2])]
            [("energy", [Val.num 1])] ⟨some 1, none, true⟩ [] []).2.2 := by
  have h : dataKeys [("energy", [Val.num 1]), ("time", [Val.num 2])]
        \ ([] : List String).toFinset
      ≠ dataKeys [("energy", [Val.num 1])] \ ([] : List String).toFinset := by
    decide
  have hc := C6_incomparable_fails [("energy", [Val.num 1]), ("time", [Val.num 2])]
    [("energy", [Val.num 1])] ⟨some 1, none, true⟩ [] [] h
  refine ⟨h, hc.2.1, ?_⟩
  have hb := hc.2.2.2.1 (by decide)
  have hset : (dataKeys [("energy", [Val.num 1]), ("time", [Val.num 2])]
        \ ([] : List String).toFinset)
      \ (dataKeys [("energy", [Val.num 1])] \ ([] : List String).toFinset)
      = {"time"} := by decide
  exact hset ▸ hb

theorem find?_key_map (f : (Case × (Bool × Bool)) → (Case × (Bool × Bool)))
    (hf : ∀ kv, (f kv).1 = kv.1) (st : StatusDict) (c : Case) :
    List.find? (fun kv => kv.1 = c) (st.map f)
      = (List.find? (fun kv => kv.1 = c) st).map f := by
  induction st with
  | nil => rfl
  | cons kv st ih =>
    by_cases h : kv.1 = c
    · rw [List.map_cons, List.find?_cons_of_pos _ (by simpa [hf] using h),
        List.find?_cons_of_pos _ (by simpa using h)]
      rfl
    · rw [List.map_cons, List.find?_cons_of_neg _ (by simpa [hf] using h),
        List.find?_cons_of_neg _ (by simpa using h), ih]

theorem statusOf_update_ne (st : StatusDict) (b : Bool) (c c2 : Case)
    (h : c2 ≠ c) :
    statusOf (update_status st b c) c2 = statusOf st c2 := by
  unfold statusOf update_status
  rw [find?_key_map _ (fun kv => by split <;> rfl)]
  cases hfind : List.find? (fun kv => kv.1 = c2) st with
  | none => rfl
  | some kv0 =>
    have hk : kv0.1 = c2 := by simpa using List.find?_some hfind
    have hne : ¬kv0.1 = c := fun hx => h (hk ▸ hx)
    simp [hne]

theorem statusOf_update_self (st : StatusDict) (b : Bool) (c : Case) :
    statusOf (update_status st b c) c
      = (statusOf st c).map (fun pr => (true, if b then true else pr.2)) := by
  unfold statusOf update_status
  rw [find?_key_map _ (fun kv => by split <;> rfl)]
  cases hfind : List.find? (fun kv => kv.1 = c) st with
  | none => rfl
  | some kv0 =>
    have hk : kv0.1 = c := by simpa using List.find?_some hfind
    simp [hk]

theorem statusOf_init (l : List Case) (c : Case) (h : c ∈ l) :
    statusOf (initStatus l) c = some (false, false) := by
  induction l with
  | nil => cases h
  | cons x l ih =>
    show statusOf ((x, (false, false)) :: initStatus l) c = some (false, false)
    by_cases hc : x = c
    · unfold statusOf
      rw [List.find?_cons_of_pos _ (by simpa using hc)]
      rfl
    · unfold statusOf
      rw [List.find?_cons_of_neg _ (by simpa using hc)]
      rcases List.mem_cons.mp h with h1 | h1
      · exact absurd h1.symm hc
      · exact ih h1

theorem run_test_loop_raise (env : RunTestEnv) (kidx : Nat) (ck : Case)
    (post : List (Nat × Case)) (hks : env.startOk kidx = true)
    (hkm : (env.hasOutput && !env.moveOutOk kidx) = false)
    (hkv : env.verifyOutcome ck = Except.error ()) :
    ∀ (pre : List (Nat × Case)) (cur : Case) (st : StatusDict) (log : List Case),
    (∀ p ∈ pre, env.startOk p.1 = true
      ∧ (env.hasOutput && !env.moveOutOk p.1) = false
      ∧ ∃ b, env.verifyOutcome p.2 = Except.ok b) →
    ∃ stMid,
      run_test_loop env (pre ++ (kidx, ck) :: post) cur st log
        = (update_status stMid false ck, log ++ pre.map Prod.snd)
      ∧ ∀ c2, c2 ∉ pre.map Prod.snd → statusOf stMid c2 = statusOf st c2 := by
  intro pre
  induction pre with
  | nil =>
    intro cur st log _
    refine ⟨st, ?_, fun c2 _ => rfl⟩
    simp only [List.nil_append, run_test_loop, hks, Bool.not_true, hkm, hkv,
      Bool.false_eq_true, if_false, List.map_nil, List.append_nil]
  | cons p pre ih =>
    intro cur st log hpre
    obtain ⟨hs, hm, b, hb⟩ := hpre p (List.mem_cons_self p pre)
    obtain ⟨stMid, h1, h2⟩ := ih p.2 (update_status st b p.2) (log ++ [p.2])
      (fun q hq => hpre q (List.mem_cons_of_mem p hq))
    refine ⟨stMid, ?_, ?_⟩
    · simp only [List.cons_append, run_test_loop, hs, Bool.not_true, hm, hb,
        Bool.false_eq_true, if_false, List.map_cons]
      refine h1.trans ?_
      simp
    · intro c2 hc2
      rw [h2 c2 (fun hx => hc2 (by simp [hx]))]
      exact statusOf_update_ne st b p.2 c2 (fun hx => hc2 (by simp [hx]))

theorem getLastD_mem : ∀ (l : List Case) (d : Case), l ≠ [] → l.getLastD d ∈ l
  | [], _, h => absurd rfl h
  | [a], d, _ => by simp
  | a :: b :: t, d, _ => by
    rw [List.getLastD_cons]
    exact List.mem_cons_of_mem a (getLastD_mem (b :: t) a (by simp))

theorem statusOf_update_isSome (st : StatusDict) (b : Bool) (c c2 : Case) :
    (statusOf (update_status st b c) c2).isSome = (statusOf st c2).isSome := by
  by_cases h : c2 = c
  · subst h
    rw [statusOf_update_self]
    cases statusOf st c2 <;> rfl
  · rw [statusOf_update_ne _ _ _ _ h]

theorem run_test_loop_spawn (env : RunTestEnv) (kidx : Nat) (ck : Case)
    (post : List (Nat × Case)) (hks : env.startOk kidx = false) :
    ∀ (pre : List (Nat × Case)) (cur : Case) (st : StatusDict) (log : List Case),
    (∀ p ∈ pre, env.startOk p.1 = true
      ∧ (env.hasOutput && !env.moveOutOk p.1) = false
      ∧ ∃ b, env.verifyOutcome p.2 = Except.ok b) →
    ∃ stMid,
      run_test_loop env (pre ++ (kidx, ck) :: post) cur st log
        = (update_status stMid false ((pre.map Prod.snd).getLastD cur),
           log ++ pre.map Prod.snd)
      ∧ (∀ c2, c2 ∉ pre.map Prod.snd → statusOf stMid c2 = statusOf st c2)
      ∧ (∀ c2, (statusOf stMid c2).isSome = (statusOf st c2).isSome) := by
  intro pre
  induction pre with
  | nil =>
    intro cur st log _
    refine ⟨st, ?_, fun c2 _ => rfl, fun c2 => rfl⟩
    simp only [List.nil_append, run_test_loop, hks, Bool.not_false, if_true,
      List.map_nil, List.getLastD_nil, List.append_nil]
  | cons p pre ih =>
    intro cur st log hpre
    obtain ⟨hs, hm, b, hb⟩ := hpre p (List.mem_cons_self p pre)
    obtain ⟨stMid, h1, h2, h3⟩ := ih p.2 (update_status st b p.2) (log ++ [p.2])
      (fun q hq => hpre q (List.mem_cons_of_mem p hq))
    refine ⟨stMid, ?_, ?_, ?_⟩
    · simp only [List.cons_append, run_test_loop, hs, Bool.not_true, hm, hb,
        Bool.false_eq_true, if_false, List.map_cons]
      refine h1.trans ?_
      rw [List.getLastD_cons]
      simp
    · intro c2 hc2
      rw [h2 c2 (fun hx => hc2 (by simp [hx]))]
      exact statusOf_update_ne st b p.2 c2 (fun hx => hc2 (by simp [hx]))
    · intro c2
      rw [h3 c2]
      exact statusOf_update_isSome st b p.2 c2

/-- A two-case test in which executing and extracting succeed everywhere but
verifying the first case raises an execution error, while the second case
would verify fine. -/
def c7env : RunTestEnv :=
  { inputs_args := [("a", ""), ("b", "")]
    inputExists := fun _ => true
    moveOldOk := true
    startOk := fun _ => true
    hasOutput := false
    moveOutOk := fun _ => true
    verifyOutcome := fun c => if c.1 = "a" then Except.error () else Except.ok true }

/-- C7 counterexample: in c7env the first case raises an execution error
during verification; run_test marks it attempted and not passed, but the
second, later case is never verified (the verification log is empty) and its
record stays not attempted, falsifying the claim that every later case is
still executed and verified. -/
theorem C7_counterexample :
    c7env.verifyOutcome ("a", "") = Except.error ()
    ∧ run_test c7env (initStatus c7env.inputs_args)
        = ([(("a", ""), (true, false)), (("b", ""), (false, false))], [])
    ∧ ("b", "") ∉ (run_test c7env (initStatus c7env.inputs_args)).2
    ∧ statusOf (run_test c7env (initStatus c7env.inputs_args)).1 ("b", "")
        = some (false, false) := by
  refine ⟨rfl, by decide, by decide, by decide⟩

theorem runTestVerifyError (env : RunTestEnv) (pre : List (Nat × Case))
    (kidx : Nat) (ck : Case) (post : List (Nat × Case))
    (hdec : env.inputs_args.enum = pre ++ (kidx, ck) :: post)
    (hnd : env.inputs_args.Nodup)
    (hmiss : firstMissingInput env = none)
    (hold : env.moveOldOk = true)
    (hpre : ∀ p ∈ pre, env.startOk p.1 = true
      ∧ (env.hasOutput && !env.moveOutOk p.1) = false
      ∧ ∃ b, env.verifyOutcome p.2 = Except.ok b)
    (hks : env.startOk kidx = true)
    (hkm : (env.hasOutput && !env.moveOutOk kidx) = false)
    (hkv : env.verifyOutcome ck = Except.error ()) :
    (run_test env (initStatus env.inputs_args)).2 = pre.map Prod.snd
    ∧ statusOf (run_test env (initStatus env.inputs_args)).1 ck
        = some (true, false)
    ∧ ∀ c2 ∈ post.map Prod.snd,
        c2 ∉ (run_test env (initStatus env.inputs_args)).2
        ∧ statusOf (run_test env (initStatus env.inputs_args)).1 c2
            = some (false, false) := by
  have hsplit : env.inputs_args
      = pre.map Prod.snd ++ ck :: post.map Prod.snd := by
    have h := congrArg (List.map Prod.snd) hdec
    simpa [List.enum_map_snd] using h
  have hrun : run_test env (initStatus env.inputs_args)
      = run_test_loop env (pre ++ (kidx, ck) :: post)
          (env.inputs_args.getLastD ("", ""))
          (initStatus env.inputs_args) [] := by
    unfold run_test
    rw [hmiss, hdec]
    simp only [hold, Bool.not_true, Bool.false_eq_true, if_false]
  obtain ⟨stMid, heq, hmid⟩ := run_test_loop_raise env kidx ck post hks hkm hkv
    pre (env.inputs_args.getLastD ("", "")) (initStatus env.inputs_args) []
    hpre
  have hnd2 : (pre.map Prod.snd ++ ck :: post.map Prod.snd).Nodup :=
    hsplit ▸ hnd
  rw [List.nodup_append] at hnd2
  obtain ⟨-, hndr, hdisj⟩ := hnd2
  have hckpost : ck ∉ post.map Prod.snd := (List.nodup_cons.mp hndr).1
  have hckpre : ck ∉ pre.map Prod.snd :=
    fun hmem => (hdisj hmem) (List.mem_cons_self _ _)
  have hckmem : ck ∈ env.inputs_args := by
    rw [hsplit]; exact List.mem_append_right _ (List.mem_cons_self _ _)
  refine ⟨?_, ?_, ?_⟩
  · rw [hrun, heq]
    simp
  · rw [hrun, heq]
    simp only [statusOf_update_self, hmid ck hckpre,
      statusOf_init _ _ hckmem]
    rfl
  · intro c2 hc2
    have hne : c2 ≠ ck := fun hx => hckpost (hx ▸ hc2)
    have hc2pre : c2 ∉ pre.map Prod.snd :=
      fun hmem => (hdisj hmem) (List.mem_cons_of_mem _ hc2)
    have hc2mem : c2 ∈ env.inputs_args := by
      rw [hsplit]
      exact List.mem_append_right _ (List.mem_cons_of_mem _ hc2)
    constructor
    · rw [hrun, heq]
      simpa using hc2pre
    · rw [hrun, heq]
      rw [statusOf_update_ne _ _ _ _ hne, hmid c2 hc2pre,
        statusOf_init _ _ hc2mem]

theorem runTestSpawnError (env : RunTestEnv) (pre : List (Nat × Case))
    (kidx : Nat) (ck : Case) (post : List (Nat × Case))
    (hdec : env.inputs_args.enum = pre ++ (kidx, ck) :: post)
    (hnd : env.inputs_args.Nodup)
    (hmiss : firstMissingInput env = none)
    (hold : env.moveOldOk = true)
    (hpre : ∀ p ∈ pre, env.startOk p.1 = true
      ∧ (env.hasOutput && !env.moveOutOk p.1) = false
      ∧ ∃ b, env.verifyOutcome p.2 = Except.ok b)
    (hks : env.startOk kidx = false)
    (hstale : (pre.map Prod.snd).getLastD (env.inputs_args.getLastD ("", ""))
        ≠ ck) :
    (run_test env (initStatus env.inputs_args)).2 = pre.map Prod.snd
    ∧ statusOf (run_test env (initStatus env.inputs_args)).1 ck
        = some (false, false)
    ∧ (∃ pb, statusOf (run_test env (initStatus env.inputs_args)).1
          ((pre.map Prod.snd).getLastD (env.inputs_args.getLastD ("", "")))
        = some (true, pb))
    ∧ ∀ c2 ∈ post.map Prod.snd,
        c2 ∉ (run_test env (initStatus env.inputs_args)).2
        ∧ (c2 ≠ (pre.map Prod.snd).getLastD (env.inputs_args.getLastD ("", ""))
           → statusOf (run_test env (initStatus env.inputs_args)).1 c2
               = some (false, false)) := by
  have hsplit : env.inputs_args
      = pre.map Prod.snd ++ ck :: post.map Prod.snd := by
    have h := congrArg (List.map Prod.snd) hdec
    simpa [List.enum_map_snd] using h
  have hrun : run_test env (initStatus env.inputs_args)
      = run_test_loop env (pre ++ (kidx, ck) :: post)
          (env.inputs_args.getLastD ("", ""))
          (initStatus env.inputs_args) [] := by
    unfold run_test
    rw [hmiss, hdec]
    simp only [hold, Bool.not_true, Bool.false_eq_true, if_false]
  obtain ⟨stMid, heq, hmid, hdom⟩ := run_test_loop_spawn env kidx ck post hks
    pre (env.inputs_args.getLastD ("", "")) (initStatus env.inputs_args) []
    hpre
  have hnd2 : (pre.map Prod.snd ++ ck :: post.map Prod.snd).Nodup :=
    hsplit ▸ hnd
  rw [List.nodup_append] at hnd2
  obtain ⟨-, hndr, hdisj⟩ := hnd2
  have hckpost : ck ∉ post.map Prod.snd := (List.nodup_cons.mp hndr).1
  have hckpre : ck ∉ pre.map Prod.snd :=
    fun hmem => (hdisj hmem) (List.mem_cons_self _ _)
  have hckmem : ck ∈ env.inputs_args := by
    rw [hsplit]; exact List.mem_append_right _ (List.mem_cons_self _ _)
  have hinne : env.inputs_args ≠ [] := by
    rw [hsplit]; simp
  have hstalemem :
      (pre.map Prod.snd).getLastD (env.inputs_args.getLastD ("", ""))
        ∈ env.inputs_args := by
    by_cases hp : pre.map Prod.snd = []
    · rw [hp, List.getLastD_nil]
      exact getLastD_mem _ _ hinne
    · rw [hsplit]
      exact List.mem_append_left _ (getLastD_mem _ _ hp)
  refine ⟨?_, ?_, ?_, ?_⟩
  · rw [hrun, heq]
    simp
  · rw [hrun, heq]
    rw [statusOf_update_ne _ _ _ _ (fun hx => hstale hx.symm),
      hmid ck hckpre, statusOf_init _ _ hckmem]
  · rw [hrun, heq]
    have hsome : (statusOf stMid
        ((pre.map Prod.snd).getLastD (env.inputs_args.getLastD ("", "")))).isSome
        = true := by
      rw [hdom, statusOf_init _ _ hstalemem]
      rfl
    obtain ⟨pr, hpr⟩ := Option.isSome_iff_exists.mp hsome
    refine ⟨pr.2, ?_⟩
    rw [statusOf_update_self, hpr]
    rfl
  · intro c2 hc2
    have hc2pre : c2 ∉ pre.map Prod.snd :=
      fun hmem => (hdisj hmem) (List.mem_cons_of_mem _ hc2)
    have hc2mem : c2 ∈ env.inputs_args := by
      rw [hsplit]
      exact List.mem_append_right _ (List.mem_cons_of_mem _ hc2)
    constructor
    · rw [hrun, heq]
      simpa using hc2pre
    · intro hnst
      rw [hrun, heq]
      rw [statusOf_update_ne _ _ _ _ hnst, hmid c2 hc2pre,
        statusOf_init _ _ hc2mem]

/-- A two-case test in which inputs exist and moving old output succeeds, but
starting the job of the first case raises an execution error (a spawn
failure); verification would succeed everywhere. -/
def c7env2 : RunTestEnv :=
  { inputs_args := [("a", ""), ("b", "")]
    inputExists := fun _ => true
    moveOldOk := true
    startOk := fun i => i != 0
    hasOutput := false
    moveOutOk := fun _ => true
    verifyOutcome := fun _ => Except.ok true }

/-- C7 (amended): an execution error is caught once at the Test level, so it
never propagates and the remaining cases of the same Test are neither executed
nor verified; apart from the single case the handler marks, every record stays
not attempted.  Which case the except clause marks is whatever the
(test_input, test_arg) variables hold when the error is raised: a missing
input file marks that case before anything runs; an error raised while moving
output or verifying case k marks case k, because the variables are reassigned
from inputs_args[ind] just before those steps; but a spawn failure at case k
is raised before that reassignment, so the stale previous case - the last
configured case, when the first spawn fails - is marked attempted and not
passed while case k itself stays not attempted. -/
theorem C7_runtest_error_stops :
    (∀ (env : RunTestEnv) (st : StatusDict) (c : Case),
        firstMissingInput env = some c →
        run_test env st = (update_status st false c, []))
    ∧ (∀ (env : RunTestEnv) (pre : List (Nat × Case)) (kidx : Nat) (ck : Case)
        (post : List (Nat × Case)),
        env.inputs_args.enum = pre ++ (kidx, ck) :: post →
        env.inputs_args.Nodup →
        firstMissingInput env = none →
        env.moveOldOk = true →
        (∀ p ∈ pre, env.startOk p.1 = true
          ∧ (env.hasOutput && !env.moveOutOk p.1) = false
          ∧ ∃ b, env.verifyOutcome p.2 = Except.ok b) →
        env.startOk kidx = true →
        (env.hasOutput && !env.moveOutOk kidx) = false →
        env.verifyOutcome ck = Except.error () →
        (run_test env (initStatus env.inputs_args)).2 = pre.map Prod.snd
        ∧ statusOf (run_test env (initStatus env.inputs_args)).1 ck
            = some (true, false)
        ∧ ∀ c2 ∈ post.map Prod.snd,
            c2 ∉ (run_test env (initStatus env.inputs_args)).2
            ∧ statusOf (run_test env (initStatus env.inputs_args)).1 c2
                = some (false, false))
    ∧ (∀ (env : RunTestEnv) (pre : List (Nat × Case)) (kidx : Nat) (ck : Case)
        (post : List (Nat × Case)),
        env.inputs_args.enum = pre ++ (kidx, ck) :: post →
        env.inputs_args.Nodup →
        firstMissingInput env = none →
        env.moveOldOk = true →
        (∀ p ∈ pre, env.startOk p.1 = true
          ∧ (env.hasOutput && !env.moveOutOk p.1) = false
          ∧ ∃ b, env.verifyOutcome p.2 = Except.ok b) →
        env.startOk kidx = false →
        (pre.map Prod.snd).getLastD (env.inputs_args.getLastD ("", "")) ≠ ck →
        (run_test env (initStatus env.inputs_args)).2 = pre.map Prod.snd
        ∧ statusOf (run_test env (initStatus env.inputs_args)).1 ck
            = some (false, false)
        ∧ (∃ pb, statusOf (run_test env (initStatus env.inputs_args)).1
              ((pre.map Prod.snd).getLastD (env.inputs_args.getLastD ("", "")))
            = some (true, pb))
        ∧ ∀ c2 ∈ post.map Prod.snd,
            c2 ∉ (run_test env (initStatus env.inputs_args)).2
            ∧ (c2 ≠ (pre.map Prod.snd).getLastD
                  (env.inputs_args.getLastD ("", "")) →
               statusOf (run_test env (initStatus env.inputs_args)).1 c2
                 = some (false, false))) := by
  refine ⟨?_, ?_, ?_⟩
  · intro env st c h
    simp only [run_test, h]
  · intro env pre kidx ck post h1 h2 h3 h4 h5 h6 h7 h8
    exact runTestVerifyError env pre kidx ck post h1 h2 h3 h4 h5 h6 h7 h8
  · intro env pre kidx ck post h1 h2 h3 h4 h5 h6 h7
    exact runTestSpawnError env pre kidx ck post h1 h2 h3 h4 h5 h6 h7

/-- C7 witness: the amended statement instantiated at c7env, whose first case
raises during verification (the first case ends attempted and failed, the
second untouched and unverified), and at c7env2, whose first case suffers a
spawn failure (the first case stays not attempted while the stale last case is
marked attempted). -/
theorem C7_runtest_error_stops_witness :
    statusOf (run_test c7env (initStatus c7env.inputs_args)).1 ("a", "")
        = some (true, false)
    ∧ ("b", "") ∉ (run_test c7env (initStatus c7env.inputs_args)).2
    ∧ statusOf (run_test c7env (initStatus c7env.inputs_args)).1 ("b", "")
        = some (false, false)
    ∧ statusOf (run_test c7env2 (initStatus c7env2.inputs_args)).1 ("a", "")
        = some (false, false)
    ∧ (∃ pb, statusOf (run_test c7env2 (initStatus c7env2.inputs_args)).1
          ("b", "") = some (true, pb)) := by
  have hB := C7_runtest_error_stops.2.1 c7env [] 0 ("a", "") [(1, ("b", ""))]
    rfl (by decide) rfl rfl (by simp) rfl rfl rfl
  have hC := C7_runtest_error_stops.2.2 c7env2 [] 0 ("a", "") [(1, ("b", ""))]
    rfl (by decide) rfl rfl (by simp) rfl (by decide)
  exact ⟨hB.2.1, (hB.2.2 ("b", "") (by simp)).1, (hB.2.2 ("b", "") (by simp)).2,
    hC.2.1, hC.2.2.1⟩
